import Mathlib

/-!
Verification of `gbasis/eval_deriv.py`: evaluation of derivatives of contracted
Gaussian basis functions at a batch of points.

The file embeds the module shallowly:

* numpy scalars are modelled exactly, over `ℚ`; the transcendental exponential
  that double-precision `exp` approximates is an abstract parameter
  `gexp : ℚ → ℚ`, so every definition stays executable and every theorem holds
  for all choices of it;
* numpy arrays are lists (rows) with explicit shape data where the code reads
  a shape attribute;
* Python exceptions become an `Except PyError` result;
* the collaborators that `eval_deriv.py` imports (`_eval_deriv_contractions`,
  the `BaseOneIndex` orchestration, `GeneralizedContractionShell`) are not part
  of the sources and are modelled from the specification, as marked on each
  definition.
-/

/-- The two exception classes `construct_array_contraction` raises. -/
inductive PyError : Type
  | typeError (msg : String)
  | valueError (msg : String)
  deriving DecidableEq, Repr

/-- Numpy dtypes the embedding distinguishes.  `orders.dtype != int` in the
source compares against the platform default integer dtype, which is `int64`
on a 64-bit Linux platform. -/
inductive NpDtype : Type
  | int64
  | int32
  | uint64
  | float64
  | float32
  deriving DecidableEq, Repr

/-- The platform default integer dtype, `np.dtype(int)`: `int64` on 64-bit
Linux. -/
def npDefaultIntDtype : NpDtype := NpDtype.int64

/-- A one-dimensional numpy array: a dtype together with its values (exact
rationals standing for the machine numbers). -/
structure NpVector : Type where
  dtype : NpDtype
  data : List ℚ
  deriving DecidableEq, Repr

/-- A two-dimensional numpy array of floats: the column count (`shape[1]`,
kept even for zero rows) and the rows. -/
structure NpArray2D : Type where
  ncols : ℕ
  rows : List (List ℚ)
  deriving DecidableEq, Repr

/-- Well-formedness of a 2-D numpy array: every row has `ncols` entries. -/
def NpArray2D.wf (a : NpArray2D) : Prop :=
  ∀ r ∈ a.rows, r.length = a.ncols

/-- The `coords` argument as Python receives it: either a 2-D `np.ndarray`
(`ndim == 2`), or anything else (`other` covers non-arrays and arrays of a
different dimensionality, which the `isinstance`/`ndim` test rejects). -/
inductive PyCoords : Type
  | ndarray2 (a : NpArray2D)
  | other

/-- The `orders` argument as Python receives it: a 1-D `np.ndarray`, or
anything else. -/
inductive PyOrders : Type
  | ndarray1 (v : NpVector)
  | other

/-- Modelled from the spec: the shell collaborator
`GeneralizedContractionShell` (not among the sources).  It exposes a center
(3 coordinates), an angular momentum `L`, exponents (length `P`), a
coefficient matrix (`P × M`), the Cartesian angular-momentum component triples
for `L`, and per-primitive Cartesian normalization constants (`P × L_cart`). -/
structure GeneralizedContractionShell : Type where
  coord : List ℚ
  angmom : ℕ
  exps : List ℚ
  coeffs : List (List ℚ)
  angmom_components_cart : List (ℕ × ℕ × ℕ)
  norm_prim_cart : List (List ℚ)
  deriving DecidableEq, Repr

namespace GeneralizedContractionShell

/-- `M`, the number of segmented contractions: the column count of the
coefficient matrix. -/
def numSeg (s : GeneralizedContractionShell) : ℕ :=
  (s.coeffs.headD []).length

/-- `L_cart`, the number of Cartesian angular-momentum components. -/
def numCart (s : GeneralizedContractionShell) : ℕ :=
  s.angmom_components_cart.length

/-- A valid shell, per the data model: a 3-vector center, at least one
primitive and one segmented contraction, a rectangular `P × M` coefficient
matrix, `(L+1)(L+2)/2` Cartesian components, and rectangular `P × L_cart`
normalization constants. -/
def wf (s : GeneralizedContractionShell) : Prop :=
  s.coord.length = 3 ∧
  s.exps ≠ [] ∧
  1 ≤ s.numSeg ∧
  s.coeffs.length = s.exps.length ∧
  (∀ r ∈ s.coeffs, r.length = s.numSeg) ∧
  s.angmom_components_cart.length = (s.angmom + 1) * (s.angmom + 2) / 2 ∧
  s.norm_prim_cart.length = s.exps.length ∧
  (∀ r ∈ s.norm_prim_cart, r.length = s.numCart)

end GeneralizedContractionShell

/-- The `contractions` argument: a shell instance or anything else (rejected
by the `isinstance` test). -/
inductive PyContraction : Type
  | shell (s : GeneralizedContractionShell)
  | other

/-- Coefficient list `[c₀, c₁, …]` of the polynomial `Σ cₖ xᵏ`, evaluated by
Horner's rule. -/
def polyEval (p : List ℚ) (x : ℚ) : ℚ :=
  p.foldr (fun c acc => c + x * acc) 0

/-- Coefficients of the derivative of the polynomial `p`. -/
def polyDerivCoeffs (p : List ℚ) : List ℚ :=
  (p.enum.map fun kc => (kc.1 : ℚ) * kc.2).tail

/-- Coefficient-wise sum of two polynomials of possibly different degrees. -/
def addPoly : List ℚ → List ℚ → List ℚ
  | [], q => q
  | p, [] => p
  | a :: p, b :: q => (a + b) :: addPoly p q

/-- Modelled from the spec: one differentiation step of
`poly(x) · exp(-α x²)`, on the polynomial factor.  Differentiating reduces
each monomial power by one (scaled by the power) or raises it by one while
multiplying by `-2α` (from the exponential). -/
def derivStep (α : ℚ) (p : List ℚ) : List ℚ :=
  addPoly (polyDerivCoeffs p) ((0 :: p).map fun c => -2 * α * c)

/-- Coefficients of the monomial `xⁿ`. -/
def monomialCoeffs (n : ℕ) : List ℚ :=
  List.replicate n 0 ++ [1]

/-- Modelled from the spec: the polynomial factor of the `o`-th derivative of
`xⁿ · exp(-α x²)`, built up order by order from the recurrence. -/
def gaussPolyCoeffs (α : ℚ) (n o : ℕ) : List ℚ :=
  (derivStep α)^[o] (monomialCoeffs n)

/-- Modelled from the spec: the `o`-th derivative of the 1-D primitive factor
`(x-c)ⁿ · exp(-α (x-c)²)` along one axis, with `gexp` the abstract
exponential. -/
def primDeriv1D (gexp : ℚ → ℚ) (α : ℚ) (n o : ℕ) (c x : ℚ) : ℚ :=
  polyEval (gaussPolyCoeffs α n o) (x - c) * gexp (-(α * (x - c) ^ 2))

/-- Modelled from the spec: the 3-D primitive derivative value, the product of
the three independent axis factors (separability of the 3-D Gaussian). -/
def primDeriv3D (gexp : ℚ → ℚ) (α : ℚ) (comp orders : ℕ × ℕ × ℕ)
    (center pt : List ℚ) : ℚ :=
  primDeriv1D gexp α comp.1 orders.1 (center.getD 0 0) (pt.getD 0 0) *
    primDeriv1D gexp α comp.2.1 orders.2.1 (center.getD 1 0) (pt.getD 1 0) *
    primDeriv1D gexp α comp.2.2 orders.2.2 (center.getD 2 0) (pt.getD 2 0)

/-- Modelled from the spec: the primitive derivative evaluator
`_eval_deriv_contractions` (not among the sources).  For every segmented
contraction `m`, angular-momentum component `l` and point, it multiplies the
per-primitive 3-D derivative value by the primitive's normalization constant
and contracts over primitives weighted by the contraction coefficients,
returning the `(M, L_cart, N)` array. -/
def _eval_deriv_contractions (gexp : ℚ → ℚ) (coords : List (List ℚ))
    (orders : ℕ × ℕ × ℕ) (center : List ℚ) (angmom_comps : List (ℕ × ℕ × ℕ))
    (alphas : List ℚ) (prim_coeffs : List (List ℚ)) (norm : List (List ℚ)) :
    List (List (List ℚ)) :=
  (List.range (prim_coeffs.headD []).length).map fun m =>
    angmom_comps.enum.map fun lcomp =>
      coords.map fun pt =>
        (((alphas.zip prim_coeffs).zip norm).map fun acn =>
          acn.1.2.getD m 0 * acn.2.getD lcomp.1 0 *
            primDeriv3D gexp acn.1.1 lcomp.2 orders center pt).sum

/-- The integer value of a validated (integral, non-negative) numpy scalar. -/
def ratToNat (q : ℚ) : ℕ := q.num.toNat

/-- The derivative-order triple held by a validated `orders` array. -/
def ordersToNat (data : List ℚ) : ℕ × ℕ × ℕ :=
  (ratToNat (data.getD 0 0), ratToNat (data.getD 1 0), ratToNat (data.getD 2 0))

/-- `EvalDeriv.construct_array_contraction` from the source: validates
`contractions`, `coords` and `orders` in order, raising the source's
exceptions, then delegates to the primitive evaluator and returns its
`(M, L_cart, N)` array unchanged. -/
def construct_array_contraction (gexp : ℚ → ℚ) (contractions : PyContraction)
    (coords : PyCoords) (orders : PyOrders) :
    Except PyError (List (List (List ℚ))) :=
  match contractions with
  | PyContraction.other =>
    Except.error (PyError.typeError
      "`contractions` must be a GeneralizedContractionShell instance.")
  | PyContraction.shell sh =>
    match coords with
    | PyCoords.other =>
      Except.error (PyError.typeError
        "`coords` must be given as a two-dimensional numpy array with 3 columnms.")
    | PyCoords.ndarray2 a =>
      if a.ncols ≠ 3 then
        Except.error (PyError.typeError
          "`coords` must be given as a two-dimensional numpy array with 3 columnms.")
      else
        match orders with
        | PyOrders.other =>
          Except.error (PyError.typeError
            "Orders of the derivatives must be a one-dimensional numpy array with 3 elements.")
        | PyOrders.ndarray1 v =>
          if v.data.length ≠ 3 then
            Except.error (PyError.typeError
              "Orders of the derivatives must be a one-dimensional numpy array with 3 elements.")
          else if v.data.any fun q => decide (q < 0) then
            Except.error (PyError.valueError
              "Negative order of derivative is not supported.")
          else if v.dtype ≠ npDefaultIntDtype then
            Except.error (PyError.valueError
              "Orders of the derivatives must be given as integers.")
          else
            Except.ok (_eval_deriv_contractions gexp a.rows (ordersToNat v.data)
              sh.coord sh.angmom_components_cart sh.exps sh.coeffs
              sh.norm_prim_cart)

/-- The `coord_type` argument: the strings `"cartesian"`/`"spherical"` (or any
other string), or a per-shell list of strings. -/
inductive CoordTypeArg : Type
  | str (s : String)
  | seq (l : List String)
  deriving DecidableEq

/-- `shape[1]` of a 2-D array held as a list of rows (its first row's
length). -/
def ncolsOf (A : List (List ℚ)) : ℕ := (A.headD []).length

/-- Matrix product `T @ A`: row `k`, column `n` is `Σⱼ T[k][j] · A[j][n]`. -/
def matmul (T A : List (List ℚ)) : List (List ℚ) :=
  T.map fun trow =>
    (List.range (ncolsOf A)).map fun n =>
      ((trow.zip A).map fun ta => ta.1 * ta.2.getD n 0).sum

/-- Modelled from the spec: flattening one shell's `(M, L_cart, N)` block to
`(M·L_cart, N)` rows, the combined segmented-contraction-major ordering of the
basis-function axis. -/
def flattenBlock (out : List (List (List ℚ))) : List (List ℚ) :=
  out.flatten

/-- Modelled from the spec: one shell's spherical block — the
cartesian-to-spherical collaborator's transform for the shell's angular
momentum, applied along the component axis of each segmented contraction,
flattened to `(M·(2L+1), N)` rows. -/
def sphBlock (sphT : ℕ → List (List ℚ)) (L : ℕ)
    (out : List (List (List ℚ))) : List (List ℚ) :=
  (out.map fun mat => matmul (sphT L) mat).flatten

/-- Modelled from the spec: the orchestration collaborator's
`construct_array_cartesian` — one `construct_array_contraction` call per
shell, each block flattened, concatenated in shell order. -/
def construct_array_cartesian (gexp : ℚ → ℚ)
    (basis : List GeneralizedContractionShell) (coords : PyCoords)
    (orders : PyOrders) : Except PyError (List (List ℚ)) :=
  (basis.mapM fun sh =>
    (construct_array_contraction gexp (PyContraction.shell sh) coords
      orders).map flattenBlock).map List.flatten

/-- Modelled from the spec: the orchestration collaborator's
`construct_array_spherical` — one `construct_array_contraction` call per
shell, each block transformed to spherical components and flattened,
concatenated in shell order. -/
def construct_array_spherical (gexp : ℚ → ℚ) (sphT : ℕ → List (List ℚ))
    (basis : List GeneralizedContractionShell) (coords : PyCoords)
    (orders : PyOrders) : Except PyError (List (List ℚ)) :=
  (basis.mapM fun sh =>
    (construct_array_contraction gexp (PyContraction.shell sh) coords
      orders).map (sphBlock sphT sh.angmom)).map List.flatten

/-- Modelled from the spec: the orchestration collaborator's
`construct_array_mix` — each shell independently contributes cartesian or
spherical functions per its designated type, concatenated in shell order.
Anything that is not a per-shell sequence matching the shell count with every
entry `"cartesian"` or `"spherical"` is a hard precondition violation. -/
def construct_array_mix (gexp : ℚ → ℚ) (sphT : ℕ → List (List ℚ))
    (coord_types : CoordTypeArg) (basis : List GeneralizedContractionShell)
    (coords : PyCoords) (orders : PyOrders) :
    Except PyError (List (List ℚ)) :=
  match coord_types with
  | CoordTypeArg.str _ =>
    Except.error (PyError.typeError
      "`coord_types` must be a list or tuple with an entry per shell.")
  | CoordTypeArg.seq l =>
    if l.length ≠ basis.length then
      Except.error (PyError.typeError
        "`coord_types` must have as many entries as there are shells.")
    else
      ((basis.zip l).mapM fun sct =>
        if sct.2 = "cartesian" then
          (construct_array_contraction gexp (PyContraction.shell sct.1) coords
            orders).map flattenBlock
        else if sct.2 = "spherical" then
          (construct_array_contraction gexp (PyContraction.shell sct.1) coords
            orders).map (sphBlock sphT sct.1.angmom)
        else
          Except.error (PyError.typeError
            "Each entry of `coord_types` must be cartesian or spherical.")).map
        List.flatten

/-- Modelled from the spec: the full per-shell, per-coordinate-type array for
a `coord_type` argument — cartesian, spherical, or mixed; any other string is
a hard precondition violation. -/
def fullContractionArray (gexp : ℚ → ℚ) (sphT : ℕ → List (List ℚ))
    (coord_type : CoordTypeArg) (basis : List GeneralizedContractionShell)
    (coords : PyCoords) (orders : PyOrders) :
    Except PyError (List (List ℚ)) :=
  match coord_type with
  | CoordTypeArg.str s =>
    if s = "cartesian" then construct_array_cartesian gexp basis coords orders
    else if s = "spherical" then
      construct_array_spherical gexp sphT basis coords orders
    else
      Except.error (PyError.typeError
        "`coord_type` must be cartesian, spherical, or a list of these.")
  | CoordTypeArg.seq _ =>
    construct_array_mix gexp sphT coord_type basis coords orders

/-- Modelled from the spec: the orchestration collaborator's
`construct_array_lincomb` — the full per-coordinate-type array, left-multiplied
by the transform along the basis-function axis. -/
def construct_array_lincomb (gexp : ℚ → ℚ) (sphT : ℕ → List (List ℚ))
    (transform : List (List ℚ)) (coord_type : CoordTypeArg)
    (basis : List GeneralizedContractionShell) (coords : PyCoords)
    (orders : PyOrders) : Except PyError (List (List ℚ)) :=
  (fullContractionArray gexp sphT coord_type basis coords orders).map
    (matmul transform)

/-- `evaluate_deriv_basis` from the source: dispatches on `transform` first,
then on `coord_type` being `"cartesian"`, then `"spherical"`, and otherwise
hands `coord_type` to the mixed constructor.  The Python defaults
(`transform=None`, `coord_type="spherical"`) are the Lean defaults. -/
def evaluate_deriv_basis (gexp : ℚ → ℚ) (sphT : ℕ → List (List ℚ))
    (basis : List GeneralizedContractionShell) (points : PyCoords)
    (orders : PyOrders)
    (transform : Option (List (List ℚ)) := none)
    (coord_type : CoordTypeArg := CoordTypeArg.str "spherical") :
    Except PyError (List (List ℚ)) :=
  match transform with
  | some t =>
    construct_array_lincomb gexp sphT t coord_type basis points orders
  | none =>
    match coord_type with
    | CoordTypeArg.str s =>
      if s = "cartesian" then
        construct_array_cartesian gexp basis points orders
      else if s = "spherical" then
        construct_array_spherical gexp sphT basis points orders
      else
        construct_array_mix gexp sphT (CoordTypeArg.str s) basis points orders
    | CoordTypeArg.seq l =>
      construct_array_mix gexp sphT (CoordTypeArg.seq l) basis points orders

/-- Whether a result is an exception of the type/shape-violation class
(a `TypeError`). -/
def isTypeErrorResult (r : Except PyError (List (List (List ℚ)))) : Bool :=
  match r with
  | Except.error (PyError.typeError _) => true
  | _ => false

/-- Modelled from the spec: the plain (non-derivative) 1-D Gaussian factor
`(x-c)ⁿ · exp(-α (x-c)²)`. -/
def plain1D (gexp : ℚ → ℚ) (α : ℚ) (n : ℕ) (c x : ℚ) : ℚ :=
  (x - c) ^ n * gexp (-(α * (x - c) ^ 2))

/-- Modelled from the spec: the plain 3-D primitive Gaussian value, the
product of the three axis factors. -/
def plainPrim3D (gexp : ℚ → ℚ) (α : ℚ) (comp : ℕ × ℕ × ℕ)
    (center pt : List ℚ) : ℚ :=
  plain1D gexp α comp.1 (center.getD 0 0) (pt.getD 0 0) *
    plain1D gexp α comp.2.1 (center.getD 1 0) (pt.getD 1 0) *
    plain1D gexp α comp.2.2 (center.getD 2 0) (pt.getD 2 0)

/-- Modelled from the spec: the plain (non-derivative) contracted Gaussian
values — per-primitive plain value times normalization constant, contracted
over primitives with the coefficients, for every
(segmented contraction, component, point). -/
def plainContractionArray (gexp : ℚ → ℚ) (coords : List (List ℚ))
    (center : List ℚ) (angmom_comps : List (ℕ × ℕ × ℕ)) (alphas : List ℚ)
    (prim_coeffs : List (List ℚ)) (norm : List (List ℚ)) :
    List (List (List ℚ)) :=
  (List.range (prim_coeffs.headD []).length).map fun m =>
    angmom_comps.enum.map fun lcomp =>
      coords.map fun pt =>
        (((alphas.zip prim_coeffs).zip norm).map fun acn =>
          acn.1.2.getD m 0 * acn.2.getD lcomp.1 0 *
            plainPrim3D gexp acn.1.1 lcomp.2 center pt).sum

/-- Column selection along the point axis: entry `k` of the result is entry
`σ k` of `r`. -/
def selRow (σ : List ℕ) (r : List ℚ) : List ℚ :=
  σ.map fun i => r.getD i 0

/-- Row selection: row `k` of the result is row `σ k` of `ps`.  When `σ`
enumerates a permutation, this permutes the rows. -/
def selRows (σ : List ℕ) (ps : List (List ℚ)) : List (List ℚ) :=
  σ.map fun i => ps.getD i []

/-- The coordinates array with its rows (points) reordered by `σ`. -/
def permuteCoords (σ : List ℕ) (a : NpArray2D) : NpArray2D :=
  ⟨a.ncols, selRows σ a.rows⟩

/-- A `coord_type` argument within the documented domain for a given basis:
the strings `"cartesian"`/`"spherical"`, or a matching-length per-shell list
of those strings. -/
def validCoordType : CoordTypeArg → List GeneralizedContractionShell → Prop
  | CoordTypeArg.str s, _ => s = "cartesian" ∨ s = "spherical"
  | CoordTypeArg.seq l, basis =>
    l.length = basis.length ∧ ∀ e ∈ l, e = "cartesian" ∨ e = "spherical"

/-- A concrete s-type shell: one primitive with exponent 1, one unit
coefficient, centered at the origin. -/
def shellS : GeneralizedContractionShell :=
  ⟨[0, 0, 0], 0, [1], [[1]], [(0, 0, 0)], [[1]]⟩

/-- One evaluation point, the origin. -/
def coordsOne : NpArray2D := ⟨3, [[0, 0, 0]]⟩

/-- Two distinct evaluation points. -/
def coordsTwo : NpArray2D := ⟨3, [[0, 0, 0], [1, 0, 0]]⟩

/-- A concrete stand-in for the abstract exponential. -/
def expOne : ℚ → ℚ := fun _ => 1

/-- A concrete cartesian-to-spherical collaborator with the documented
`(2L+1)` row count. -/
def sphW : ℕ → List (List ℚ) := fun L => List.replicate (2 * L + 1) [0]

/-- One shell's validated `(M, L_cart, N)` evaluation, as the orchestration
sees it after `construct_array_contraction`'s checks pass. -/
def evalShell (gexp : ℚ → ℚ) (sh : GeneralizedContractionShell)
    (rows : List (List ℚ)) (onat : ℕ × ℕ × ℕ) : List (List (List ℚ)) :=
  _eval_deriv_contractions gexp rows onat sh.coord sh.angmom_components_cart
    sh.exps sh.coeffs sh.norm_prim_cart

/-- One shell's flattened Cartesian block, `(M·L_cart, N)`. -/
def cartShellBlock (gexp : ℚ → ℚ) (sh : GeneralizedContractionShell)
    (rows : List (List ℚ)) (onat : ℕ × ℕ × ℕ) : List (List ℚ) :=
  flattenBlock (evalShell gexp sh rows onat)

/-- One shell's flattened spherical block, `(M·(2L+1), N)` for a collaborator
with `2L+1` transform rows. -/
def sphShellBlock (gexp : ℚ → ℚ) (sphT : ℕ → List (List ℚ))
    (sh : GeneralizedContractionShell) (rows : List (List ℚ))
    (onat : ℕ × ℕ × ℕ) : List (List ℚ) :=
  sphBlock sphT sh.angmom (evalShell gexp sh rows onat)

/-- One shell's block in a mixed basis: cartesian or spherical per the
shell's designated type. -/
def mixShellBlock (gexp : ℚ → ℚ) (sphT : ℕ → List (List ℚ))
    (sct : GeneralizedContractionShell × String) (rows : List (List ℚ))
    (onat : ℕ × ℕ × ℕ) : List (List ℚ) :=
  if sct.2 = "cartesian" then cartShellBlock gexp sct.1 rows onat
  else sphShellBlock gexp sphT sct.1 rows onat

/-- The concatenated full contraction array over validated inputs, per
coordinate type. -/
def fullBlocks (gexp : ℚ → ℚ) (sphT : ℕ → List (List ℚ))
    (ct : CoordTypeArg) (basis : List GeneralizedContractionShell)
    (rows : List (List ℚ)) (onat : ℕ × ℕ × ℕ) : List (List ℚ) :=
  match ct with
  | CoordTypeArg.str s =>
    if s = "cartesian" then
      (basis.map fun sh => cartShellBlock gexp sh rows onat).flatten
    else (basis.map fun sh => sphShellBlock gexp sphT sh rows onat).flatten
  | CoordTypeArg.seq l =>
    ((basis.zip l).map fun sct => mixShellBlock gexp sphT sct rows onat).flatten

theorem any_neg_eq_false {l : List ℚ} (h : ∀ q ∈ l, 0 ≤ q) :
    (l.any fun q => decide (q < 0)) = false := by
  simp only [List.any_eq_false, decide_eq_true_eq]
  intro q hq
  exact not_lt.mpr (h q hq)

theorem construct_array_contraction_ok (gexp : ℚ → ℚ)
    (sh : GeneralizedContractionShell) (a : NpArray2D) (v : NpVector)
    (hc : a.ncols = 3) (hdt : v.dtype = npDefaultIntDtype)
    (hlen : v.data.length = 3) (hnn : ∀ q ∈ v.data, 0 ≤ q) :
    construct_array_contraction gexp (PyContraction.shell sh)
        (PyCoords.ndarray2 a) (PyOrders.ndarray1 v) =
      Except.ok (_eval_deriv_contractions gexp a.rows (ordersToNat v.data)
        sh.coord sh.angmom_components_cart sh.exps sh.coeffs
        sh.norm_prim_cart) := by
  simp [construct_array_contraction, hc, hdt, hlen, any_neg_eq_false hnn]

/-- C4: with a genuine shell, a 2-D coords array with 3 columns, and an
`orders` ndarray of shape `(3,)` containing a negative value,
`construct_array_contraction` raises the negative-order `ValueError` — a value
error, not a type error. -/
theorem c4_negative_order_raises_value_error (gexp : ℚ → ℚ)
    (sh : GeneralizedContractionShell) (a : NpArray2D) (v : NpVector)
    (ha : a.wf) (hc : a.ncols = 3) (hlen : v.data.length = 3)
    (hneg : ∃ q ∈ v.data, q < 0) :
    construct_array_contraction gexp (PyContraction.shell sh)
        (PyCoords.ndarray2 a) (PyOrders.ndarray1 v) =
      Except.error (PyError.valueError
        "Negative order of derivative is not supported.") := by
  have hany : (v.data.any fun q => decide (q < 0)) = true := by
    obtain ⟨q, hq, hlt⟩ := hneg
    simp only [List.any_eq_true, decide_eq_true_eq]
    exact ⟨q, hq, hlt⟩
  simp [construct_array_contraction, hc, hlen, hany]

/-- C4 witness: a concrete negative order triple is rejected with the
negative-order `ValueError`. -/
theorem c4_negative_order_raises_value_error_witness :
    (coordsOne.wf ∧ coordsOne.ncols = 3 ∧
      (NpVector.mk NpDtype.int64 [-1, 0, 0]).data.length = 3 ∧
      ∃ q ∈ (NpVector.mk NpDtype.int64 [-1, 0, 0]).data, q < 0) ∧
    construct_array_contraction expOne (PyContraction.shell shellS)
        (PyCoords.ndarray2 coordsOne)
        (PyOrders.ndarray1 (NpVector.mk NpDtype.int64 [-1, 0, 0])) =
      Except.error (PyError.valueError
        "Negative order of derivative is not supported.") :=
  ⟨⟨by simp [coordsOne, NpArray2D.wf], by decide, by decide, by decide⟩,
    c4_negative_order_raises_value_error expOne shellS coordsOne
      (NpVector.mk NpDtype.int64 [-1, 0, 0]) (by simp [coordsOne, NpArray2D.wf])
      (by decide) (by decide) (by decide)⟩

/-- C5: an `orders` ndarray of floating-point dtype with all values ≥ 0 —
even all integral, such as `[0.0, 0.0, 0.0]` — is rejected with the
integer-dtype `ValueError`. -/
theorem c5_float_orders_raise_value_error (gexp : ℚ → ℚ)
    (sh : GeneralizedContractionShell) (a : NpArray2D) (v : NpVector)
    (ha : a.wf) (hc : a.ncols = 3) (hlen : v.data.length = 3)
    (hfl : v.dtype = NpDtype.float64 ∨ v.dtype = NpDtype.float32)
    (hnn : ∀ q ∈ v.data, 0 ≤ q) :
    construct_array_contraction gexp (PyContraction.shell sh)
        (PyCoords.ndarray2 a) (PyOrders.ndarray1 v) =
      Except.error (PyError.valueError
        "Orders of the derivatives must be given as integers.") := by
  have hdt : v.dtype ≠ npDefaultIntDtype := by
    rcases hfl with h | h <;> simp [h, npDefaultIntDtype]
  simp [construct_array_contraction, hc, hlen, any_neg_eq_false hnn, hdt]

/-- C5 witness: the all-integral float triple `[0.0, 0.0, 0.0]` is rejected
with the integer-dtype `ValueError`. -/
theorem c5_float_orders_raise_value_error_witness :
    (coordsOne.wf ∧ coordsOne.ncols = 3 ∧
      (NpVector.mk NpDtype.float64 [0, 0, 0]).data.length = 3 ∧
      (NpVector.mk NpDtype.float64 [0, 0, 0]).dtype = NpDtype.float64 ∧
      ∀ q ∈ (NpVector.mk NpDtype.float64 [0, 0, 0]).data, 0 ≤ q) ∧
    construct_array_contraction expOne (PyContraction.shell shellS)
        (PyCoords.ndarray2 coordsOne)
        (PyOrders.ndarray1 (NpVector.mk NpDtype.float64 [0, 0, 0])) =
      Except.error (PyError.valueError
        "Orders of the derivatives must be given as integers.") :=
  ⟨⟨by simp [coordsOne, NpArray2D.wf], by decide, by decide, by decide,
      by decide⟩,
    c5_float_orders_raise_value_error expOne shellS coordsOne
      (NpVector.mk NpDtype.float64 [0, 0, 0])
      (by simp [coordsOne, NpArray2D.wf]) (by decide) (by decide)
      (Or.inl (by decide)) (by decide)⟩

/-- C6 counterexample: for the wrong-dtype-category violation (float
`orders = [0.0, 0.0, 0.0]`, otherwise valid inputs),
`construct_array_contraction` raises a `ValueError`, not an error of the
type/shape-violation class. -/
theorem c6_dtype_error_class_counterexample :
    construct_array_contraction expOne (PyContraction.shell shellS)
        (PyCoords.ndarray2 coordsOne)
        (PyOrders.ndarray1 (NpVector.mk NpDtype.float64 [0, 0, 0])) =
      Except.error (PyError.valueError
        "Orders of the derivatives must be given as integers.") ∧
    isTypeErrorResult (construct_array_contraction expOne
        (PyContraction.shell shellS) (PyCoords.ndarray2 coordsOne)
        (PyOrders.ndarray1 (NpVector.mk NpDtype.float64 [0, 0, 0]))) =
      false := by
  constructor <;> rfl

/-- C6 (amended): a wrong dtype category of `orders` (with non-negative
values) is reported as a `ValueError` — the value-violation class covers both
negative orders and a non-integral `orders` dtype, while the
type/shape-violation class (`TypeError`) covers the non-instance,
wrong-dimensionality, wrong-column-count and wrong-element-count
violations. -/
theorem c6_dtype_violation_raises_value_error (gexp : ℚ → ℚ)
    (sh : GeneralizedContractionShell) (a : NpArray2D) (v : NpVector)
    (hc : a.ncols = 3) (hlen : v.data.length = 3)
    (hnn : ∀ q ∈ v.data, 0 ≤ q) (hdt : v.dtype ≠ npDefaultIntDtype) :
    construct_array_contraction gexp (PyContraction.shell sh)
        (PyCoords.ndarray2 a) (PyOrders.ndarray1 v) =
      Except.error (PyError.valueError
        "Orders of the derivatives must be given as integers.") ∧
    isTypeErrorResult (construct_array_contraction gexp
        (PyContraction.shell sh) (PyCoords.ndarray2 a)
        (PyOrders.ndarray1 v)) = false := by
  have h : construct_array_contraction gexp (PyContraction.shell sh)
      (PyCoords.ndarray2 a) (PyOrders.ndarray1 v) =
      Except.error (PyError.valueError
        "Orders of the derivatives must be given as integers.") := by
    simp [construct_array_contraction, hc, hlen, any_neg_eq_false hnn, hdt]
  exact ⟨h, by rw [h]; rfl⟩

/-- C6 witness: a `uint64` order triple is rejected with the integer-dtype
`ValueError`, which is not of the type/shape class. -/
theorem c6_dtype_violation_raises_value_error_witness :
    (coordsOne.ncols = 3 ∧
      (NpVector.mk NpDtype.uint64 [1, 0, 0]).data.length = 3 ∧
      (∀ q ∈ (NpVector.mk NpDtype.uint64 [1, 0, 0]).data, 0 ≤ q) ∧
      (NpVector.mk NpDtype.uint64 [1, 0, 0]).dtype ≠ npDefaultIntDtype) ∧
    construct_array_contraction expOne (PyContraction.shell shellS)
        (PyCoords.ndarray2 coordsOne)
        (PyOrders.ndarray1 (NpVector.mk NpDtype.uint64 [1, 0, 0])) =
      Except.error (PyError.valueError
        "Orders of the derivatives must be given as integers.") ∧
    isTypeErrorResult (construct_array_contraction expOne
        (PyContraction.shell shellS) (PyCoords.ndarray2 coordsOne)
        (PyOrders.ndarray1 (NpVector.mk NpDtype.uint64 [1, 0, 0]))) =
      false :=
  ⟨⟨by decide, by decide, by decide, by decide⟩,
    c6_dtype_violation_raises_value_error expOne shellS coordsOne
      (NpVector.mk NpDtype.uint64 [1, 0, 0]) (by decide) (by decide)
      (by decide) (by decide)⟩

/-- C10: `construct_array_contraction` accepts `orders` exactly when its
dtype compares equal to the platform default integer dtype (`np.dtype(int)`,
`int64` on 64-bit Linux): any other dtype with non-negative values — `int32`
or `uint64` included — draws the integer-dtype `ValueError`, while the
default integer dtype proceeds to the evaluator. -/
theorem c10_orders_dtype_gate (gexp : ℚ → ℚ)
    (sh : GeneralizedContractionShell) (a : NpArray2D) (v : NpVector)
    (hc : a.ncols = 3) (hlen : v.data.length = 3)
    (hnn : ∀ q ∈ v.data, 0 ≤ q) :
    (v.dtype ≠ npDefaultIntDtype →
      construct_array_contraction gexp (PyContraction.shell sh)
          (PyCoords.ndarray2 a) (PyOrders.ndarray1 v) =
        Except.error (PyError.valueError
          "Orders of the derivatives must be given as integers.")) ∧
    (v.dtype = npDefaultIntDtype →
      construct_array_contraction gexp (PyContraction.shell sh)
          (PyCoords.ndarray2 a) (PyOrders.ndarray1 v) =
        Except.ok (_eval_deriv_contractions gexp a.rows
          (ordersToNat v.data) sh.coord sh.angmom_components_cart sh.exps
          sh.coeffs sh.norm_prim_cart)) := by
  constructor
  · intro hdt
    simp [construct_array_contraction, hc, hlen, any_neg_eq_false hnn, hdt]
  · intro hdt
    exact construct_array_contraction_ok gexp sh a v hc hdt hlen hnn

/-- C10 witness: an `int32` order triple with non-negative values is rejected,
and the same values with the platform default integer dtype are accepted. -/
theorem c10_orders_dtype_gate_witness :
    (coordsOne.ncols = 3 ∧
      (NpVector.mk NpDtype.int32 [0, 0, 0]).data.length = 3 ∧
      ∀ q ∈ (NpVector.mk NpDtype.int32 [0, 0, 0]).data, 0 ≤ q) ∧
    ((NpVector.mk NpDtype.int32 [0, 0, 0]).dtype ≠ npDefaultIntDtype →
      construct_array_contraction expOne (PyContraction.shell shellS)
          (PyCoords.ndarray2 coordsOne)
          (PyOrders.ndarray1 (NpVector.mk NpDtype.int32 [0, 0, 0])) =
        Except.error (PyError.valueError
          "Orders of the derivatives must be given as integers.")) ∧
    ((NpVector.mk NpDtype.int32 [0, 0, 0]).dtype = npDefaultIntDtype →
      construct_array_contraction expOne (PyContraction.shell shellS)
          (PyCoords.ndarray2 coordsOne)
          (PyOrders.ndarray1 (NpVector.mk NpDtype.int32 [0, 0, 0])) =
        Except.ok (_eval_deriv_contractions expOne coordsOne.rows
          (ordersToNat (NpVector.mk NpDtype.int32 [0, 0, 0]).data)
          shellS.coord shellS.angmom_components_cart shellS.exps
          shellS.coeffs shellS.norm_prim_cart)) :=
  ⟨⟨by decide, by decide, by decide⟩,
    c10_orders_dtype_gate expOne shellS coordsOne
      (NpVector.mk NpDtype.int32 [0, 0, 0]) (by decide) (by decide)
      (by decide)⟩

theorem eval_deriv_contractions_length (gexp : ℚ → ℚ)
    (coords : List (List ℚ)) (orders : ℕ × ℕ × ℕ) (center : List ℚ)
    (angmom_comps : List (ℕ × ℕ × ℕ)) (alphas : List ℚ)
    (prim_coeffs norm : List (List ℚ)) :
    (_eval_deriv_contractions gexp coords orders center angmom_comps alphas
      prim_coeffs norm).length = (prim_coeffs.headD []).length := by
  simp [_eval_deriv_contractions]

theorem eval_deriv_contractions_shape (gexp : ℚ → ℚ)
    (coords : List (List ℚ)) (orders : ℕ × ℕ × ℕ) (center : List ℚ)
    (angmom_comps : List (ℕ × ℕ × ℕ)) (alphas : List ℚ)
    (prim_coeffs norm : List (List ℚ)) :
    ∀ mat ∈ _eval_deriv_contractions gexp coords orders center angmom_comps
        alphas prim_coeffs norm,
      mat.length = angmom_comps.length ∧
        ∀ row ∈ mat, row.length = coords.length := by
  intro mat hmat
  simp only [_eval_deriv_contractions, List.mem_map] at hmat
  obtain ⟨m, hm, rfl⟩ := hmat
  refine ⟨by simp, ?_⟩
  intro row hrow
  simp only [List.mem_map] at hrow
  obtain ⟨lc, hlc, rfl⟩ := hrow
  simp

/-- C1: for every valid shell with `M` segmented contractions and `L_cart`
Cartesian components, every coords array of `N` 3-D points, and every valid
non-negative integer order triple, `construct_array_contraction` returns an
array of shape `(M, L_cart, N)`. -/
theorem c1_contraction_output_shape (gexp : ℚ → ℚ)
    (sh : GeneralizedContractionShell) (a : NpArray2D) (v : NpVector)
    (hwf : sh.wf) (ha : a.wf) (hc : a.ncols = 3)
    (hdt : v.dtype = npDefaultIntDtype) (hlen : v.data.length = 3)
    (hnn : ∀ q ∈ v.data, 0 ≤ q) :
    ∃ out, construct_array_contraction gexp (PyContraction.shell sh)
        (PyCoords.ndarray2 a) (PyOrders.ndarray1 v) = Except.ok out ∧
      out.length = sh.numSeg ∧
      ∀ mat ∈ out, mat.length = sh.numCart ∧
        ∀ row ∈ mat, row.length = a.rows.length := by
  refine ⟨_, construct_array_contraction_ok gexp sh a v hc hdt hlen hnn,
    ?_, ?_⟩
  · simpa [GeneralizedContractionShell.numSeg] using
      eval_deriv_contractions_length gexp a.rows (ordersToNat v.data)
        sh.coord sh.angmom_components_cart sh.exps sh.coeffs
        sh.norm_prim_cart
  · exact eval_deriv_contractions_shape gexp a.rows (ordersToNat v.data)
      sh.coord sh.angmom_components_cart sh.exps sh.coeffs sh.norm_prim_cart

/-- C1 witness: the concrete s shell, one point and order `(0, 0, 0)` give a
`(1, 1, 1)` array. -/
theorem c1_contraction_output_shape_witness :
    (shellS.wf ∧ coordsOne.wf ∧ coordsOne.ncols = 3 ∧
      (NpVector.mk NpDtype.int64 [0, 0, 0]).dtype = npDefaultIntDtype ∧
      (NpVector.mk NpDtype.int64 [0, 0, 0]).data.length = 3 ∧
      ∀ q ∈ (NpVector.mk NpDtype.int64 [0, 0, 0]).data, 0 ≤ q) ∧
    ∃ out, construct_array_contraction expOne (PyContraction.shell shellS)
        (PyCoords.ndarray2 coordsOne)
        (PyOrders.ndarray1 (NpVector.mk NpDtype.int64 [0, 0, 0])) =
          Except.ok out ∧
      out.length = shellS.numSeg ∧
      ∀ mat ∈ out, mat.length = shellS.numCart ∧
        ∀ row ∈ mat, row.length = coordsOne.rows.length :=
  ⟨⟨by simp [shellS, GeneralizedContractionShell.wf,
      GeneralizedContractionShell.numSeg, GeneralizedContractionShell.numCart],
    by simp [coordsOne, NpArray2D.wf], by decide, by decide, by decide,
    by decide⟩,
    c1_contraction_output_shape expOne shellS coordsOne
      (NpVector.mk NpDtype.int64 [0, 0, 0])
      (by simp [shellS, GeneralizedContractionShell.wf,
        GeneralizedContractionShell.numSeg,
        GeneralizedContractionShell.numCart])
      (by simp [coordsOne, NpArray2D.wf]) (by decide) (by decide) (by decide)
      (by decide)⟩

theorem polyEval_monomialCoeffs (n : ℕ) (x : ℚ) :
    polyEval (monomialCoeffs n) x = x ^ n := by
  induction n with
  | zero => simp [monomialCoeffs, polyEval]
  | succ n ih =>
    have h : monomialCoeffs (n + 1) = 0 :: monomialCoeffs n := by
      simp [monomialCoeffs, List.replicate_succ]
    rw [h]
    simp only [polyEval, List.foldr_cons] at ih ⊢
    rw [ih, pow_succ]
    ring

theorem primDeriv1D_order_zero (gexp : ℚ → ℚ) (α : ℚ) (n : ℕ) (c x : ℚ) :
    primDeriv1D gexp α n 0 c x = plain1D gexp α n c x := by
  simp [primDeriv1D, plain1D, gaussPolyCoeffs, polyEval_monomialCoeffs]

theorem primDeriv3D_order_zero (gexp : ℚ → ℚ) (α : ℚ) (comp : ℕ × ℕ × ℕ)
    (center pt : List ℚ) :
    primDeriv3D gexp α comp (0, 0, 0) center pt =
      plainPrim3D gexp α comp center pt := by
  simp [primDeriv3D, plainPrim3D, primDeriv1D_order_zero]

theorem eval_deriv_contractions_order_zero (gexp : ℚ → ℚ)
    (coords : List (List ℚ)) (center : List ℚ)
    (angmom_comps : List (ℕ × ℕ × ℕ)) (alphas : List ℚ)
    (prim_coeffs norm : List (List ℚ)) :
    _eval_deriv_contractions gexp coords (0, 0, 0) center angmom_comps alphas
        prim_coeffs norm =
      plainContractionArray gexp coords center angmom_comps alphas
        prim_coeffs norm := by
  simp only [_eval_deriv_contractions, plainContractionArray,
    primDeriv3D_order_zero]

/-- C3: for every valid shell and coordinates, evaluation with derivative
order triple `(0, 0, 0)` returns exactly the plain (non-derivative)
contracted Gaussian values at the points. -/
theorem c3_zero_order_is_plain_evaluation (gexp : ℚ → ℚ)
    (sh : GeneralizedContractionShell) (a : NpArray2D) (v : NpVector)
    (hwf : sh.wf) (ha : a.wf) (hc : a.ncols = 3)
    (hdt : v.dtype = npDefaultIntDtype) (hdata : v.data = [0, 0, 0]) :
    construct_array_contraction gexp (PyContraction.shell sh)
        (PyCoords.ndarray2 a) (PyOrders.ndarray1 v) =
      Except.ok (plainContractionArray gexp a.rows sh.coord
        sh.angmom_components_cart sh.exps sh.coeffs sh.norm_prim_cart) := by
  have hlen : v.data.length = 3 := by rw [hdata]; rfl
  have hnn : ∀ q ∈ v.data, 0 ≤ q := by rw [hdata]; decide
  rw [construct_array_contraction_ok gexp sh a v hc hdt hlen hnn, hdata]
  have h0 : ordersToNat [(0 : ℚ), 0, 0] = (0, 0, 0) := rfl
  rw [h0, eval_deriv_contractions_order_zero]

/-- C3 witness: at the concrete s shell and point, order `(0, 0, 0)` returns
the plain contraction values. -/
theorem c3_zero_order_is_plain_evaluation_witness :
    (shellS.wf ∧ coordsOne.wf ∧ coordsOne.ncols = 3 ∧
      (NpVector.mk NpDtype.int64 [0, 0, 0]).dtype = npDefaultIntDtype ∧
      (NpVector.mk NpDtype.int64 [0, 0, 0]).data = [0, 0, 0]) ∧
    construct_array_contraction expOne (PyContraction.shell shellS)
        (PyCoords.ndarray2 coordsOne)
        (PyOrders.ndarray1 (NpVector.mk NpDtype.int64 [0, 0, 0])) =
      Except.ok (plainContractionArray expOne coordsOne.rows shellS.coord
        shellS.angmom_components_cart shellS.exps shellS.coeffs
        shellS.norm_prim_cart) :=
  ⟨⟨by simp [shellS, GeneralizedContractionShell.wf,
      GeneralizedContractionShell.numSeg, GeneralizedContractionShell.numCart],
    by simp [coordsOne, NpArray2D.wf], by decide, by decide, by decide⟩,
    c3_zero_order_is_plain_evaluation expOne shellS coordsOne
      (NpVector.mk NpDtype.int64 [0, 0, 0])
      (by simp [shellS, GeneralizedContractionShell.wf,
        GeneralizedContractionShell.numSeg,
        GeneralizedContractionShell.numCart])
      (by simp [coordsOne, NpArray2D.wf]) (by decide) (by decide)
      (by decide)⟩

/-- C2: `evaluate_deriv_basis` dispatches in the source's precedence: a
provided `transform` selects the linear-combination array (built from the
`coord_type`-selected full array, then left-multiplied); otherwise
`"cartesian"` selects the concatenated Cartesian array, `"spherical"` the
concatenated spherical array, and any other `coord_type` is handed to the
mixed per-shell constructor. -/
theorem c2_dispatch_precedence (gexp : ℚ → ℚ) (sphT : ℕ → List (List ℚ))
    (basis : List GeneralizedContractionShell) (points : PyCoords)
    (orders : PyOrders) :
    (∀ (t : List (List ℚ)) (ct : CoordTypeArg),
      evaluate_deriv_basis gexp sphT basis points orders (some t) ct =
        construct_array_lincomb gexp sphT t ct basis points orders ∧
      construct_array_lincomb gexp sphT t ct basis points orders =
        (fullContractionArray gexp sphT ct basis points orders).map
          (matmul t)) ∧
    (evaluate_deriv_basis gexp sphT basis points orders none
        (CoordTypeArg.str "cartesian") =
      construct_array_cartesian gexp basis points orders) ∧
    (evaluate_deriv_basis gexp sphT basis points orders none
        (CoordTypeArg.str "spherical") =
      construct_array_spherical gexp sphT basis points orders) ∧
    (∀ ct : CoordTypeArg, ct ≠ CoordTypeArg.str "cartesian" →
      ct ≠ CoordTypeArg.str "spherical" →
      evaluate_deriv_basis gexp sphT basis points orders none ct =
        construct_array_mix gexp sphT ct basis points orders) := by
  refine ⟨fun t ct => ⟨rfl, rfl⟩, by rfl, by rfl, ?_⟩
  intro ct hcart hsph
  match ct with
  | CoordTypeArg.seq l => rfl
  | CoordTypeArg.str s =>
    have h1 : s ≠ "cartesian" := fun h => hcart (by rw [h])
    have h2 : s ≠ "spherical" := fun h => hsph (by rw [h])
    simp [evaluate_deriv_basis, h1, h2]

/-- C2 witness: a per-shell sequence `coord_type` is neither `"cartesian"`
nor `"spherical"` and lands in the mixed constructor. -/
theorem c2_dispatch_precedence_witness :
    (CoordTypeArg.seq ["cartesian"] ≠ CoordTypeArg.str "cartesian" ∧
      CoordTypeArg.seq ["cartesian"] ≠ CoordTypeArg.str "spherical") ∧
    evaluate_deriv_basis expOne sphW [shellS] (PyCoords.ndarray2 coordsOne)
        (PyOrders.ndarray1 (NpVector.mk NpDtype.int64 [0, 0, 0])) none
        (CoordTypeArg.seq ["cartesian"]) =
      construct_array_mix expOne sphW (CoordTypeArg.seq ["cartesian"])
        [shellS] (PyCoords.ndarray2 coordsOne)
        (PyOrders.ndarray1 (NpVector.mk NpDtype.int64 [0, 0, 0])) :=
  ⟨⟨by decide, by decide⟩,
    (c2_dispatch_precedence expOne sphW [shellS]
        (PyCoords.ndarray2 coordsOne)
        (PyOrders.ndarray1 (NpVector.mk NpDtype.int64 [0, 0, 0]))).2.2.2
      (CoordTypeArg.seq ["cartesian"]) (by decide) (by decide)⟩

/-- C9: called without the `coord_type` argument, `evaluate_deriv_basis`
behaves exactly as if `coord_type = "spherical"` had been passed; without a
transform this is the concatenated spherical array. -/
theorem c9_default_coord_type_is_spherical (gexp : ℚ → ℚ)
    (sphT : ℕ → List (List ℚ)) (basis : List GeneralizedContractionShell)
    (points : PyCoords) (orders : PyOrders)
    (transform : Option (List (List ℚ))) :
    evaluate_deriv_basis gexp sphT basis points orders transform =
      evaluate_deriv_basis gexp sphT basis points orders transform
        (CoordTypeArg.str "spherical") ∧
    evaluate_deriv_basis gexp sphT basis points orders none =
      construct_array_spherical gexp sphT basis points orders := by
  exact ⟨rfl, by rfl⟩

theorem mapM_except_ok {α β : Type} (f : α → Except PyError β) (g : α → β)
    (l : List α) (h : ∀ x ∈ l, f x = Except.ok (g x)) :
    l.mapM f = Except.ok (l.map g) := by
  induction l with
  | nil => rfl
  | cons x xs ih =>
    rw [List.mapM_cons, h x (List.mem_cons_self x xs),
      ih fun y hy => h y (List.mem_cons_of_mem x hy)]
    rfl

theorem construct_array_cartesian_ok (gexp : ℚ → ℚ)
    (basis : List GeneralizedContractionShell) (a : NpArray2D) (v : NpVector)
    (hc : a.ncols = 3) (hdt : v.dtype = npDefaultIntDtype)
    (hlen : v.data.length = 3) (hnn : ∀ q ∈ v.data, 0 ≤ q) :
    construct_array_cartesian gexp basis (PyCoords.ndarray2 a)
        (PyOrders.ndarray1 v) =
      Except.ok ((basis.map fun sh =>
        cartShellBlock gexp sh a.rows (ordersToNat v.data)).flatten) := by
  unfold construct_array_cartesian
  rw [mapM_except_ok _
    (fun sh => cartShellBlock gexp sh a.rows (ordersToNat v.data)) basis
    fun sh _ => by
      rw [construct_array_contraction_ok gexp sh a v hc hdt hlen hnn]; rfl]
  rfl

theorem construct_array_spherical_ok (gexp : ℚ → ℚ)
    (sphT : ℕ → List (List ℚ)) (basis : List GeneralizedContractionShell)
    (a : NpArray2D) (v : NpVector) (hc : a.ncols = 3)
    (hdt : v.dtype = npDefaultIntDtype) (hlen : v.data.length = 3)
    (hnn : ∀ q ∈ v.data, 0 ≤ q) :
    construct_array_spherical gexp sphT basis (PyCoords.ndarray2 a)
        (PyOrders.ndarray1 v) =
      Except.ok ((basis.map fun sh =>
        sphShellBlock gexp sphT sh a.rows (ordersToNat v.data)).flatten) := by
  unfold construct_array_spherical
  rw [mapM_except_ok _
    (fun sh => sphShellBlock gexp sphT sh a.rows (ordersToNat v.data)) basis
    fun sh _ => by
      rw [construct_array_contraction_ok gexp sh a v hc hdt hlen hnn]; rfl]
  rfl

theorem cartShellBlock_length (gexp : ℚ → ℚ)
    (sh : GeneralizedContractionShell) (rows : List (List ℚ))
    (onat : ℕ × ℕ × ℕ) (hwf : sh.wf) :
    (cartShellBlock gexp sh rows onat).length = sh.numSeg * sh.numCart := by
  unfold cartShellBlock flattenBlock
  rw [List.length_flatten]
  have h : (evalShell gexp sh rows onat).map List.length =
      List.replicate sh.numSeg sh.numCart := by
    refine List.ext_getElem ?_ ?_
    · simp [evalShell, _eval_deriv_contractions,
        GeneralizedContractionShell.numSeg]
    · intro i h1 h2
      simp only [evalShell, _eval_deriv_contractions, List.getElem_map,
        List.getElem_replicate, List.getElem_range, List.length_map,
        List.enum_length, GeneralizedContractionShell.numCart]
  rw [h]
  simp [List.sum_replicate, Nat.smul_one_eq_cast]

theorem cartShellBlock_rows (gexp : ℚ → ℚ)
    (sh : GeneralizedContractionShell) (rows : List (List ℚ))
    (onat : ℕ × ℕ × ℕ) :
    ∀ r ∈ cartShellBlock gexp sh rows onat, r.length = rows.length := by
  intro r hr
  unfold cartShellBlock flattenBlock at hr
  rw [List.mem_flatten] at hr
  obtain ⟨mat, hmat, hrm⟩ := hr
  exact ((eval_deriv_contractions_shape gexp rows onat sh.coord
    sh.angmom_components_cart sh.exps sh.coeffs sh.norm_prim_cart mat
    hmat).2 r hrm)

theorem ncolsOf_eq {A : List (List ℚ)} {N : ℕ} (hne : A ≠ [])
    (h : ∀ r ∈ A, r.length = N) : ncolsOf A = N := by
  match A, hne with
  | r :: rs, _ => exact h r (List.mem_cons_self r rs)

theorem matmul_length (T A : List (List ℚ)) :
    (matmul T A).length = T.length := by
  simp [matmul]

theorem matmul_row_length (T A : List (List ℚ)) :
    ∀ r ∈ matmul T A, r.length = ncolsOf A := by
  intro r hr
  simp only [matmul, List.mem_map] at hr
  obtain ⟨trow, _, rfl⟩ := hr
  simp

theorem numCart_pos {sh : GeneralizedContractionShell} (hwf : sh.wf) :
    1 ≤ sh.numCart := by
  obtain ⟨-, -, -, -, -, hcart, -, -⟩ := hwf
  unfold GeneralizedContractionShell.numCart
  rw [hcart]
  rw [Nat.le_div_iff_mul_le (by norm_num)]
  calc 1 * 2 = 1 * 2 := rfl
    _ ≤ (sh.angmom + 1) * (sh.angmom + 2) :=
      Nat.mul_le_mul (Nat.le_add_left 1 sh.angmom)
        (Nat.le_add_left 2 sh.angmom)

theorem cart_total_pos (gexp : ℚ → ℚ)
    (basis : List GeneralizedContractionShell) (hbne : basis ≠ [])
    (hwfb : ∀ sh ∈ basis, sh.wf) :
    1 ≤ (basis.map fun sh => sh.numSeg * sh.numCart).sum := by
  match basis, hbne with
  | sh :: rest, _ =>
    have hwf := hwfb sh (List.mem_cons_self sh rest)
    have h1 : 1 ≤ sh.numSeg * sh.numCart :=
      Nat.one_le_iff_ne_zero.mpr (Nat.mul_ne_zero
        (Nat.one_le_iff_ne_zero.mp hwf.2.2.1)
        (Nat.one_le_iff_ne_zero.mp (numCart_pos hwf)))
    calc 1 ≤ sh.numSeg * sh.numCart := h1
      _ ≤ sh.numSeg * sh.numCart +
          (rest.map fun s => s.numSeg * s.numCart).sum := Nat.le_add_right _ _
      _ = ((sh :: rest).map fun s => s.numSeg * s.numCart).sum := by simp

/-- C7: over a basis of shells with per-shell Cartesian function counts
`cᵢ = Mᵢ·L_cartᵢ` and `N` points, `evaluate_deriv_basis` with
`coord_type = "cartesian"` and no transform returns exactly the per-shell
Cartesian blocks concatenated in input shell order along the basis-function
axis — shape `(Σcᵢ, N)` — and with a transform of shape `(K_orbs, Σcᵢ)` it
returns that shell-ordered concatenation left-multiplied by the transform,
of shape `(K_orbs, N)`. -/
theorem c7_basis_concatenation_shapes (gexp : ℚ → ℚ)
    (sphT : ℕ → List (List ℚ)) (basis : List GeneralizedContractionShell)
    (a : NpArray2D) (v : NpVector) (hbne : basis ≠ [])
    (hwfb : ∀ sh ∈ basis, sh.wf) (ha : a.wf) (hc : a.ncols = 3)
    (hdt : v.dtype = npDefaultIntDtype) (hlen : v.data.length = 3)
    (hnn : ∀ q ∈ v.data, 0 ≤ q) :
    (evaluate_deriv_basis gexp sphT basis (PyCoords.ndarray2 a)
        (PyOrders.ndarray1 v) none (CoordTypeArg.str "cartesian") =
      Except.ok ((basis.map fun sh =>
        cartShellBlock gexp sh a.rows (ordersToNat v.data)).flatten) ∧
      ((basis.map fun sh =>
        cartShellBlock gexp sh a.rows (ordersToNat v.data)).flatten).length =
        (basis.map fun sh => sh.numSeg * sh.numCart).sum ∧
      ∀ r ∈ (basis.map fun sh =>
          cartShellBlock gexp sh a.rows (ordersToNat v.data)).flatten,
        r.length = a.rows.length) ∧
    (∀ T : List (List ℚ),
      (∀ trow ∈ T,
        trow.length = (basis.map fun sh => sh.numSeg * sh.numCart).sum) →
      evaluate_deriv_basis gexp sphT basis (PyCoords.ndarray2 a)
          (PyOrders.ndarray1 v) (some T) (CoordTypeArg.str "cartesian") =
        Except.ok (matmul T ((basis.map fun sh =>
          cartShellBlock gexp sh a.rows (ordersToNat v.data)).flatten)) ∧
      (matmul T ((basis.map fun sh =>
        cartShellBlock gexp sh a.rows (ordersToNat v.data)).flatten)).length =
        T.length ∧
      ∀ r ∈ matmul T ((basis.map fun sh =>
          cartShellBlock gexp sh a.rows (ordersToNat v.data)).flatten),
        r.length = a.rows.length) := by
  have hcart : evaluate_deriv_basis gexp sphT basis (PyCoords.ndarray2 a)
      (PyOrders.ndarray1 v) none (CoordTypeArg.str "cartesian") =
      Except.ok ((basis.map fun sh =>
        cartShellBlock gexp sh a.rows (ordersToNat v.data)).flatten) := by
    show construct_array_cartesian gexp basis (PyCoords.ndarray2 a)
        (PyOrders.ndarray1 v) = _
    exact construct_array_cartesian_ok gexp basis a v hc hdt hlen hnn
  have hAlen : ((basis.map fun sh =>
      cartShellBlock gexp sh a.rows (ordersToNat v.data)).flatten).length =
      (basis.map fun sh => sh.numSeg * sh.numCart).sum := by
    rw [List.length_flatten, List.map_map]
    congr 1
    refine List.map_congr_left fun sh hsh => ?_
    exact cartShellBlock_length gexp sh a.rows (ordersToNat v.data)
      (hwfb sh hsh)
  have hArows : ∀ r ∈ (basis.map fun sh =>
      cartShellBlock gexp sh a.rows (ordersToNat v.data)).flatten,
      r.length = a.rows.length := by
    intro r hr
    rw [List.mem_flatten] at hr
    obtain ⟨blk, hblk, hrb⟩ := hr
    rw [List.mem_map] at hblk
    obtain ⟨sh, _, rfl⟩ := hblk
    exact cartShellBlock_rows gexp sh a.rows (ordersToNat v.data) r hrb
  refine ⟨⟨hcart, hAlen, hArows⟩, ?_⟩
  intro T hT
  have hlin : evaluate_deriv_basis gexp sphT basis (PyCoords.ndarray2 a)
      (PyOrders.ndarray1 v) (some T) (CoordTypeArg.str "cartesian") =
      Except.ok (matmul T ((basis.map fun sh =>
        cartShellBlock gexp sh a.rows (ordersToNat v.data)).flatten)) := by
    show construct_array_lincomb gexp sphT T (CoordTypeArg.str "cartesian")
        basis (PyCoords.ndarray2 a) (PyOrders.ndarray1 v) = _
    unfold construct_array_lincomb
    have hfull : fullContractionArray gexp sphT (CoordTypeArg.str "cartesian")
        basis (PyCoords.ndarray2 a) (PyOrders.ndarray1 v) =
        construct_array_cartesian gexp basis (PyCoords.ndarray2 a)
          (PyOrders.ndarray1 v) := rfl
    rw [hfull, construct_array_cartesian_ok gexp basis a v hc hdt hlen hnn]
    rfl
  have hAne : (basis.map fun sh =>
      cartShellBlock gexp sh a.rows (ordersToNat v.data)).flatten ≠ [] := by
    intro hemp
    have := cart_total_pos gexp basis hbne hwfb
    rw [← hAlen, hemp] at this
    exact absurd this (by norm_num)
  refine ⟨hlin, matmul_length T _, ?_⟩
  intro r hr
  rw [matmul_row_length T _ r hr]
  exact ncolsOf_eq hAne hArows

/-- C7 witness: a single s shell, one point, identity-like transform. -/
theorem c7_basis_concatenation_shapes_witness :
    ([shellS] ≠ ([] : List GeneralizedContractionShell) ∧
      (∀ sh ∈ [shellS], sh.wf) ∧ coordsOne.wf ∧ coordsOne.ncols = 3 ∧
      (NpVector.mk NpDtype.int64 [0, 0, 0]).dtype = npDefaultIntDtype ∧
      (NpVector.mk NpDtype.int64 [0, 0, 0]).data.length = 3 ∧
      ∀ q ∈ (NpVector.mk NpDtype.int64 [0, 0, 0]).data, 0 ≤ q) ∧
    (evaluate_deriv_basis expOne sphW [shellS]
        (PyCoords.ndarray2 coordsOne)
        (PyOrders.ndarray1 (NpVector.mk NpDtype.int64 [0, 0, 0])) none
        (CoordTypeArg.str "cartesian") =
      Except.ok (([shellS].map fun sh => cartShellBlock expOne sh
        coordsOne.rows (ordersToNat [0, 0, 0])).flatten) ∧
      (([shellS].map fun sh => cartShellBlock expOne sh coordsOne.rows
        (ordersToNat [0, 0, 0])).flatten).length =
        ([shellS].map fun sh => sh.numSeg * sh.numCart).sum ∧
      ∀ r ∈ ([shellS].map fun sh => cartShellBlock expOne sh coordsOne.rows
          (ordersToNat [0, 0, 0])).flatten,
        r.length = coordsOne.rows.length) ∧
    (∀ T : List (List ℚ),
      (∀ trow ∈ T,
        trow.length = ([shellS].map fun sh => sh.numSeg * sh.numCart).sum) →
      evaluate_deriv_basis expOne sphW [shellS]
          (PyCoords.ndarray2 coordsOne)
          (PyOrders.ndarray1 (NpVector.mk NpDtype.int64 [0, 0, 0])) (some T)
          (CoordTypeArg.str "cartesian") =
        Except.ok (matmul T (([shellS].map fun sh => cartShellBlock expOne sh
          coordsOne.rows (ordersToNat [0, 0, 0])).flatten)) ∧
      (matmul T (([shellS].map fun sh => cartShellBlock expOne sh
        coordsOne.rows (ordersToNat [0, 0, 0])).flatten)).length = T.length ∧
      ∀ r ∈ matmul T (([shellS].map fun sh => cartShellBlock expOne sh
          coordsOne.rows (ordersToNat [0, 0, 0])).flatten),
        r.length = coordsOne.rows.length) :=
  ⟨⟨by decide,
    by intro sh hsh; rw [List.mem_singleton] at hsh; subst hsh;
       simp [shellS, GeneralizedContractionShell.wf,
         GeneralizedContractionShell.numSeg,
         GeneralizedContractionShell.numCart],
    by simp [coordsOne, NpArray2D.wf], by decide, by decide, by decide,
    by decide⟩,
    c7_basis_concatenation_shapes expOne sphW [shellS] coordsOne
      (NpVector.mk NpDtype.int64 [0, 0, 0]) (by decide)
      (by intro sh hsh; rw [List.mem_singleton] at hsh; subst hsh;
          simp [shellS, GeneralizedContractionShell.wf,
            GeneralizedContractionShell.numSeg,
            GeneralizedContractionShell.numCart])
      (by simp [coordsOne, NpArray2D.wf]) (by decide) (by decide) (by decide)
      (by decide)⟩

theorem getD_map_lt {α β : Type} (g : α → β) (l : List α) (i : ℕ)
    (h : i < l.length) (d : β) (d2 : α) :
    (l.map g).getD i d = g (l.getD i d2) := by
  rw [List.getD_eq_getElem?_getD, List.getD_eq_getElem?_getD,
    List.getElem?_map, List.getElem?_eq_getElem h]
  rfl

theorem selRow_map (σ : List ℕ) (ps : List (List ℚ)) (g : List ℚ → ℚ)
    (hσ : ∀ i ∈ σ, i < ps.length) :
    selRow σ (ps.map g) = (selRows σ ps).map g := by
  unfold selRow selRows
  rw [List.map_map]
  exact List.map_congr_left fun i hi => getD_map_lt g ps i (hσ i hi) 0 []

theorem evalShell_selRows (gexp : ℚ → ℚ) (sh : GeneralizedContractionShell)
    (σ : List ℕ) (rows : List (List ℚ)) (onat : ℕ × ℕ × ℕ)
    (hσ : ∀ i ∈ σ, i < rows.length) :
    evalShell gexp sh (selRows σ rows) onat =
      (evalShell gexp sh rows onat).map fun mat => mat.map (selRow σ) := by
  unfold evalShell _eval_deriv_contractions
  rw [List.map_map]
  refine List.map_congr_left fun m _ => ?_
  simp only [Function.comp_apply]
  rw [List.map_map]
  refine List.map_congr_left fun lc _ => ?_
  simp only [Function.comp_apply]
  exact (selRow_map σ rows _ hσ).symm

theorem selfMap_eq_range_map {α β : Type} (l : List α) (d : α) (f : α → β) :
    l.map f = (List.range l.length).map fun n => f (l.getD n d) := by
  refine List.ext_getElem (by simp) ?_
  intro i h1 h2
  simp only [List.getElem_map, List.getElem_range]
  congr 1
  rw [List.getD_eq_getElem?_getD,
    List.getElem?_eq_getElem (by simpa using h1)]
  rfl

theorem selRow_range_map (σ : List ℕ) (N : ℕ) (f : ℕ → ℚ)
    (hσ : ∀ i ∈ σ, i < N) :
    selRow σ ((List.range N).map f) = σ.map f := by
  unfold selRow
  refine List.map_congr_left fun i hi => ?_
  rw [getD_map_lt f (List.range N) i (by simpa using hσ i hi) 0 0]
  congr 1
  rw [List.getD_eq_getElem?_getD,
    List.getElem?_eq_getElem (by simpa using hσ i hi)]
  simp

theorem matmul_selRows (T A : List (List ℚ)) (σ : List ℕ) (N : ℕ)
    (hne : A ≠ []) (hA : ∀ r ∈ A, r.length = N) (hσ : ∀ i ∈ σ, i < N) :
    matmul T (A.map (selRow σ)) = (matmul T A).map (selRow σ) := by
  unfold matmul
  rw [List.map_map]
  refine List.map_congr_left fun trow _ => ?_
  have hncols : ncolsOf (A.map (selRow σ)) = σ.length := by
    match A, hne with
    | r :: rs, _ => simp [ncolsOf, selRow]
  have hN : ncolsOf A = N := ncolsOf_eq hne hA
  rw [hncols, hN, Function.comp,
    selRow_range_map σ N
      (fun n => ((trow.zip A).map fun ta => ta.1 * ta.2.getD n 0).sum) hσ,
    selfMap_eq_range_map σ 0
      (fun i => ((trow.zip A).map fun ta => ta.1 * ta.2.getD i 0).sum)]
  refine List.map_congr_left fun n hn => ?_
  have hnlt : n < σ.length := by simpa using hn
  rw [List.zip_map_right, List.map_map]
  refine congrArg List.sum (List.map_congr_left fun ta _ => ?_)
  obtain ⟨t, a2⟩ := ta
  have hsel : (selRow σ a2).getD n 0 = a2.getD (σ.getD n 0) 0 :=
    getD_map_lt (fun i => a2.getD i 0) σ n hnlt 0 0
  simp only [Function.comp_apply, Prod.map_apply, Prod.fst, Prod.snd, id_eq]
  rw [hsel]

theorem cartShellBlock_selRows (gexp : ℚ → ℚ)
    (sh : GeneralizedContractionShell) (σ : List ℕ) (rows : List (List ℚ))
    (onat : ℕ × ℕ × ℕ) (hσ : ∀ i ∈ σ, i < rows.length) :
    cartShellBlock gexp sh (selRows σ rows) onat =
      (cartShellBlock gexp sh rows onat).map (selRow σ) := by
  unfold cartShellBlock flattenBlock
  rw [evalShell_selRows gexp sh σ rows onat hσ, List.map_flatten]

theorem evalShell_mat_ne_nil (gexp : ℚ → ℚ)
    (sh : GeneralizedContractionShell) (rows : List (List ℚ))
    (onat : ℕ × ℕ × ℕ) (hwf : sh.wf) :
    ∀ mat ∈ evalShell gexp sh rows onat, mat ≠ [] := by
  intro mat hmat
  have hlen := (eval_deriv_contractions_shape gexp rows onat sh.coord
    sh.angmom_components_cart sh.exps sh.coeffs sh.norm_prim_cart mat
    hmat).1
  have hpos : 0 < mat.length := by
    rw [hlen]
    exact numCart_pos hwf
  exact List.ne_nil_of_length_pos hpos

theorem sphShellBlock_selRows (gexp : ℚ → ℚ) (sphT : ℕ → List (List ℚ))
    (sh : GeneralizedContractionShell) (σ : List ℕ) (rows : List (List ℚ))
    (onat : ℕ × ℕ × ℕ) (hwf : sh.wf) (hσ : ∀ i ∈ σ, i < rows.length) :
    sphShellBlock gexp sphT sh (selRows σ rows) onat =
      (sphShellBlock gexp sphT sh rows onat).map (selRow σ) := by
  unfold sphShellBlock sphBlock
  rw [evalShell_selRows gexp sh σ rows onat hσ, List.map_map,
    List.map_flatten, List.map_map]
  refine congrArg List.flatten (List.map_congr_left fun mat hmat => ?_)
  simp only [Function.comp_apply]
  exact matmul_selRows (sphT sh.angmom) mat σ rows.length
    (evalShell_mat_ne_nil gexp sh rows onat hwf mat hmat)
    ((eval_deriv_contractions_shape gexp rows onat sh.coord
      sh.angmom_components_cart sh.exps sh.coeffs sh.norm_prim_cart mat
      hmat).2) hσ

theorem sphShellBlock_length (gexp : ℚ → ℚ) (sphT : ℕ → List (List ℚ))
    (sh : GeneralizedContractionShell) (rows : List (List ℚ))
    (onat : ℕ × ℕ × ℕ) :
    (sphShellBlock gexp sphT sh rows onat).length =
      sh.numSeg * (sphT sh.angmom).length := by
  unfold sphShellBlock sphBlock
  rw [List.length_flatten, List.map_map]
  have h : (evalShell gexp sh rows onat).map
      (List.length ∘ fun mat => matmul (sphT sh.angmom) mat) =
      List.replicate sh.numSeg (sphT sh.angmom).length := by
    refine List.ext_getElem ?_ ?_
    · simp [evalShell, _eval_deriv_contractions,
        GeneralizedContractionShell.numSeg]
    · intro i h1 h2
      simp only [List.getElem_map, List.getElem_replicate,
        Function.comp_apply, matmul_length]
  rw [h]
  simp [List.sum_replicate, Nat.smul_one_eq_cast]

theorem sphShellBlock_rows (gexp : ℚ → ℚ) (sphT : ℕ → List (List ℚ))
    (sh : GeneralizedContractionShell) (rows : List (List ℚ))
    (onat : ℕ × ℕ × ℕ) (hwf : sh.wf) :
    ∀ r ∈ sphShellBlock gexp sphT sh rows onat, r.length = rows.length := by
  intro r hr
  unfold sphShellBlock sphBlock at hr
  rw [List.mem_flatten] at hr
  obtain ⟨blk, hblk, hrb⟩ := hr
  rw [List.mem_map] at hblk
  obtain ⟨mat, hmat, rfl⟩ := hblk
  rw [matmul_row_length (sphT sh.angmom) mat r hrb]
  exact ncolsOf_eq (evalShell_mat_ne_nil gexp sh rows onat hwf mat hmat)
    ((eval_deriv_contractions_shape gexp rows onat sh.coord
      sh.angmom_components_cart sh.exps sh.coeffs sh.norm_prim_cart mat
      hmat).2)

theorem mixShellBlock_selRows (gexp : ℚ → ℚ) (sphT : ℕ → List (List ℚ))
    (sct : GeneralizedContractionShell × String) (σ : List ℕ)
    (rows : List (List ℚ)) (onat : ℕ × ℕ × ℕ) (hwf : sct.1.wf)
    (hσ : ∀ i ∈ σ, i < rows.length) :
    mixShellBlock gexp sphT sct (selRows σ rows) onat =
      (mixShellBlock gexp sphT sct rows onat).map (selRow σ) := by
  unfold mixShellBlock
  by_cases h : sct.2 = "cartesian"
  · rw [if_pos h, if_pos h]
    exact cartShellBlock_selRows gexp sct.1 σ rows onat hσ
  · rw [if_neg h, if_neg h]
    exact sphShellBlock_selRows gexp sphT sct.1 σ rows onat hwf hσ

theorem mixShellBlock_rows (gexp : ℚ → ℚ) (sphT : ℕ → List (List ℚ))
    (sct : GeneralizedContractionShell × String) (rows : List (List ℚ))
    (onat : ℕ × ℕ × ℕ) (hwf : sct.1.wf) :
    ∀ r ∈ mixShellBlock gexp sphT sct rows onat, r.length = rows.length := by
  unfold mixShellBlock
  by_cases h : sct.2 = "cartesian"
  · rw [if_pos h]
    exact cartShellBlock_rows gexp sct.1 rows onat
  · rw [if_neg h]
    exact sphShellBlock_rows gexp sphT sct.1 rows onat hwf

theorem flatten_ne_nil_of_head {α : Type} (b : List α) (rest : List (List α))
    (hb : b ≠ []) : (b :: rest).flatten ≠ [] := by
  rw [List.flatten_cons]
  intro h
  exact hb (List.append_eq_nil.mp h).1

theorem cartShellBlock_ne_nil (gexp : ℚ → ℚ)
    (sh : GeneralizedContractionShell) (rows : List (List ℚ))
    (onat : ℕ × ℕ × ℕ) (hwf : sh.wf) :
    cartShellBlock gexp sh rows onat ≠ [] := by
  apply List.ne_nil_of_length_pos
  rw [cartShellBlock_length gexp sh rows onat hwf]
  exact Nat.mul_pos hwf.2.2.1 (numCart_pos hwf)

theorem sphShellBlock_ne_nil (gexp : ℚ → ℚ) (sphT : ℕ → List (List ℚ))
    (sh : GeneralizedContractionShell) (rows : List (List ℚ))
    (onat : ℕ × ℕ × ℕ) (hwf : sh.wf)
    (hsphT : ∀ L, (sphT L).length = 2 * L + 1) :
    sphShellBlock gexp sphT sh rows onat ≠ [] := by
  apply List.ne_nil_of_length_pos
  rw [sphShellBlock_length gexp sphT sh rows onat, hsphT sh.angmom]
  exact Nat.mul_pos hwf.2.2.1 (Nat.succ_pos _)

theorem mixShellBlock_ne_nil (gexp : ℚ → ℚ) (sphT : ℕ → List (List ℚ))
    (sct : GeneralizedContractionShell × String) (rows : List (List ℚ))
    (onat : ℕ × ℕ × ℕ) (hwf : sct.1.wf)
    (hsphT : ∀ L, (sphT L).length = 2 * L + 1) :
    mixShellBlock gexp sphT sct rows onat ≠ [] := by
  unfold mixShellBlock
  by_cases h : sct.2 = "cartesian"
  · rw [if_pos h]
    exact cartShellBlock_ne_nil gexp sct.1 rows onat hwf
  · rw [if_neg h]
    exact sphShellBlock_ne_nil gexp sphT sct.1 rows onat hwf hsphT

theorem construct_array_mix_ok (gexp : ℚ → ℚ) (sphT : ℕ → List (List ℚ))
    (l : List String) (basis : List GeneralizedContractionShell)
    (a : NpArray2D) (v : NpVector) (hc : a.ncols = 3)
    (hdt : v.dtype = npDefaultIntDtype) (hlen : v.data.length = 3)
    (hnn : ∀ q ∈ v.data, 0 ≤ q) (hll : l.length = basis.length)
    (hent : ∀ e ∈ l, e = "cartesian" ∨ e = "spherical") :
    construct_array_mix gexp sphT (CoordTypeArg.seq l) basis
        (PyCoords.ndarray2 a) (PyOrders.ndarray1 v) =
      Except.ok (((basis.zip l).map fun sct =>
        mixShellBlock gexp sphT sct a.rows (ordersToNat v.data)).flatten) := by
  simp only [construct_array_mix]
  rw [if_neg (by simp [hll])]
  rw [mapM_except_ok _
    (fun sct => mixShellBlock gexp sphT sct a.rows (ordersToNat v.data)) _
    ?_]
  · rfl
  · intro sct hsct
    rcases hent sct.2 (List.of_mem_zip hsct).2 with hcart | hsph
    · rw [if_pos hcart,
        construct_array_contraction_ok gexp sct.1 a v hc hdt hlen hnn]
      simp [mixShellBlock, hcart, flattenBlock, cartShellBlock, evalShell, Except.map]
    · rw [if_neg (by simp [hsph]), if_pos hsph,
        construct_array_contraction_ok gexp sct.1 a v hc hdt hlen hnn]
      simp [mixShellBlock, hsph, sphShellBlock, evalShell, Except.map]

theorem fullContractionArray_ok (gexp : ℚ → ℚ) (sphT : ℕ → List (List ℚ))
    (ct : CoordTypeArg) (basis : List GeneralizedContractionShell)
    (a : NpArray2D) (v : NpVector) (hct : validCoordType ct basis)
    (hc : a.ncols = 3) (hdt : v.dtype = npDefaultIntDtype)
    (hlen : v.data.length = 3) (hnn : ∀ q ∈ v.data, 0 ≤ q) :
    fullContractionArray gexp sphT ct basis (PyCoords.ndarray2 a)
        (PyOrders.ndarray1 v) =
      Except.ok (fullBlocks gexp sphT ct basis a.rows
        (ordersToNat v.data)) := by
  match ct with
  | CoordTypeArg.str s =>
    simp only [fullContractionArray, fullBlocks]
    rcases hct with h | h
    · subst h
      rw [if_pos rfl, if_pos rfl]
      exact construct_array_cartesian_ok gexp basis a v hc hdt hlen hnn
    · subst h
      have hne : ¬("spherical" = "cartesian") := by decide
      rw [if_neg hne, if_neg hne, if_pos rfl]
      exact construct_array_spherical_ok gexp sphT basis a v hc hdt hlen hnn
  | CoordTypeArg.seq l =>
    obtain ⟨hll, hent⟩ := hct
    simp only [fullContractionArray, fullBlocks]
    exact construct_array_mix_ok gexp sphT l basis a v hc hdt hlen hnn hll
      hent

theorem fullBlocks_selRows (gexp : ℚ → ℚ) (sphT : ℕ → List (List ℚ))
    (ct : CoordTypeArg) (basis : List GeneralizedContractionShell)
    (σ : List ℕ) (rows : List (List ℚ)) (onat : ℕ × ℕ × ℕ)
    (hwfb : ∀ sh ∈ basis, sh.wf) (hσ : ∀ i ∈ σ, i < rows.length) :
    fullBlocks gexp sphT ct basis (selRows σ rows) onat =
      (fullBlocks gexp sphT ct basis rows onat).map (selRow σ) := by
  match ct with
  | CoordTypeArg.str s =>
    simp only [fullBlocks]
    by_cases h : s = "cartesian"
    · rw [if_pos h, if_pos h, List.map_flatten, List.map_map]
      refine congrArg List.flatten (List.map_congr_left fun sh _ => ?_)
      simp only [Function.comp_apply]
      exact cartShellBlock_selRows gexp sh σ rows onat hσ
    · rw [if_neg h, if_neg h, List.map_flatten, List.map_map]
      refine congrArg List.flatten (List.map_congr_left fun sh hsh => ?_)
      simp only [Function.comp_apply]
      exact sphShellBlock_selRows gexp sphT sh σ rows onat (hwfb sh hsh) hσ
  | CoordTypeArg.seq l =>
    simp only [fullBlocks]
    rw [List.map_flatten, List.map_map]
    refine congrArg List.flatten (List.map_congr_left fun sct hsct => ?_)
    simp only [Function.comp_apply]
    exact mixShellBlock_selRows gexp sphT sct σ rows onat
      (hwfb sct.1 (List.of_mem_zip hsct).1) hσ

theorem fullBlocks_rows (gexp : ℚ → ℚ) (sphT : ℕ → List (List ℚ))
    (ct : CoordTypeArg) (basis : List GeneralizedContractionShell)
    (rows : List (List ℚ)) (onat : ℕ × ℕ × ℕ)
    (hwfb : ∀ sh ∈ basis, sh.wf) :
    ∀ r ∈ fullBlocks gexp sphT ct basis rows onat,
      r.length = rows.length := by
  intro r hr
  match ct with
  | CoordTypeArg.str s =>
    simp only [fullBlocks] at hr
    by_cases h : s = "cartesian"
    · rw [if_pos h, List.mem_flatten] at hr
      obtain ⟨blk, hblk, hrb⟩ := hr
      rw [List.mem_map] at hblk
      obtain ⟨sh, _, rfl⟩ := hblk
      exact cartShellBlock_rows gexp sh rows onat r hrb
    · rw [if_neg h, List.mem_flatten] at hr
      obtain ⟨blk, hblk, hrb⟩ := hr
      rw [List.mem_map] at hblk
      obtain ⟨sh, hsh, rfl⟩ := hblk
      exact sphShellBlock_rows gexp sphT sh rows onat (hwfb sh hsh) r hrb
  | CoordTypeArg.seq l =>
    simp only [fullBlocks] at hr
    rw [List.mem_flatten] at hr
    obtain ⟨blk, hblk, hrb⟩ := hr
    rw [List.mem_map] at hblk
    obtain ⟨sct, hsct, rfl⟩ := hblk
    exact mixShellBlock_rows gexp sphT sct rows onat
      (hwfb sct.1 (List.of_mem_zip hsct).1) r hrb

theorem fullBlocks_ne_nil (gexp : ℚ → ℚ) (sphT : ℕ → List (List ℚ))
    (ct : CoordTypeArg) (basis : List GeneralizedContractionShell)
    (rows : List (List ℚ)) (onat : ℕ × ℕ × ℕ) (hbne : basis ≠ [])
    (hwfb : ∀ sh ∈ basis, sh.wf)
    (hsphT : ∀ L, (sphT L).length = 2 * L + 1)
    (hct : validCoordType ct basis) :
    fullBlocks gexp sphT ct basis rows onat ≠ [] := by
  match basis, hbne with
  | sh :: rest, _ =>
    have hwf : sh.wf := hwfb sh (List.mem_cons_self sh rest)
    match ct with
    | CoordTypeArg.str s =>
      simp only [fullBlocks]
      by_cases h : s = "cartesian"
      · rw [if_pos h, List.map_cons]
        exact flatten_ne_nil_of_head _ _
          (cartShellBlock_ne_nil gexp sh rows onat hwf)
      · rw [if_neg h, List.map_cons]
        exact flatten_ne_nil_of_head _ _
          (sphShellBlock_ne_nil gexp sphT sh rows onat hwf hsphT)
    | CoordTypeArg.seq l =>
      match l, hct.1 with
      | e :: l2, _ =>
        simp only [fullBlocks]
        rw [List.zip_cons_cons, List.map_cons]
        exact flatten_ne_nil_of_head _ _
          (mixShellBlock_ne_nil gexp sphT (sh, e) rows onat hwf hsphT)

theorem evaluate_deriv_basis_no_transform (gexp : ℚ → ℚ)
    (sphT : ℕ → List (List ℚ)) (basis : List GeneralizedContractionShell)
    (points : PyCoords) (orders : PyOrders) (ct : CoordTypeArg)
    (hct : validCoordType ct basis) :
    evaluate_deriv_basis gexp sphT basis points orders none ct =
      fullContractionArray gexp sphT ct basis points orders := by
  match ct with
  | CoordTypeArg.str s =>
    rcases hct with h | h <;> subst h <;> rfl
  | CoordTypeArg.seq l => rfl

/-- C8: reordering the input points reorders the point (last) axis of the
output of `construct_array_contraction`, and of `evaluate_deriv_basis` in
every branch, by the same index selection, leaving all other values
identical. -/
theorem c8_point_order_preserved (gexp : ℚ → ℚ) (sphT : ℕ → List (List ℚ))
    (basis : List GeneralizedContractionShell)
    (sh : GeneralizedContractionShell) (a : NpArray2D) (v : NpVector)
    (σ : List ℕ) (hwfb : ∀ s ∈ basis, s.wf) (hbne : basis ≠ [])
    (hsphT : ∀ L, (sphT L).length = 2 * L + 1) (ha : a.wf) (hc : a.ncols = 3)
    (hdt : v.dtype = npDefaultIntDtype) (hlen : v.data.length = 3)
    (hnn : ∀ q ∈ v.data, 0 ≤ q) (hσ : ∀ i ∈ σ, i < a.rows.length) :
    (∃ out, construct_array_contraction gexp (PyContraction.shell sh)
        (PyCoords.ndarray2 a) (PyOrders.ndarray1 v) = Except.ok out ∧
      construct_array_contraction gexp (PyContraction.shell sh)
          (PyCoords.ndarray2 (permuteCoords σ a)) (PyOrders.ndarray1 v) =
        Except.ok (out.map fun mat => mat.map (selRow σ))) ∧
    (∀ (transform : Option (List (List ℚ))) (ct : CoordTypeArg),
      validCoordType ct basis →
      evaluate_deriv_basis gexp sphT basis
          (PyCoords.ndarray2 (permuteCoords σ a)) (PyOrders.ndarray1 v)
          transform ct =
        (evaluate_deriv_basis gexp sphT basis (PyCoords.ndarray2 a)
          (PyOrders.ndarray1 v) transform ct).map
          (List.map (selRow σ))) := by
  constructor
  · refine ⟨_, construct_array_contraction_ok gexp sh a v hc hdt hlen hnn,
      ?_⟩
    rw [construct_array_contraction_ok gexp sh (permuteCoords σ a) v hc hdt
      hlen hnn]
    congr 1
    show evalShell gexp sh (selRows σ a.rows) (ordersToNat v.data) =
      (evalShell gexp sh a.rows (ordersToNat v.data)).map fun mat =>
        mat.map (selRow σ)
    exact evalShell_selRows gexp sh σ a.rows (ordersToNat v.data) hσ
  · intro transform ct hct
    match transform with
    | none =>
      rw [evaluate_deriv_basis_no_transform gexp sphT basis
          (PyCoords.ndarray2 (permuteCoords σ a)) (PyOrders.ndarray1 v) ct
          hct,
        evaluate_deriv_basis_no_transform gexp sphT basis
          (PyCoords.ndarray2 a) (PyOrders.ndarray1 v) ct hct,
        fullContractionArray_ok gexp sphT ct basis (permuteCoords σ a) v hct
          hc hdt hlen hnn,
        fullContractionArray_ok gexp sphT ct basis a v hct hc hdt hlen hnn]
      simp only [Except.map]
      congr 1
      exact fullBlocks_selRows gexp sphT ct basis σ a.rows
        (ordersToNat v.data) hwfb hσ
    | some T =>
      have he : ∀ coords : PyCoords,
          evaluate_deriv_basis gexp sphT basis coords (PyOrders.ndarray1 v)
            (some T) ct =
          (fullContractionArray gexp sphT ct basis coords
            (PyOrders.ndarray1 v)).map (matmul T) := fun _ => rfl
      rw [he, he,
        fullContractionArray_ok gexp sphT ct basis (permuteCoords σ a) v hct
          hc hdt hlen hnn,
        fullContractionArray_ok gexp sphT ct basis a v hct hc hdt hlen hnn]
      simp only [Except.map]
      congr 1
      rw [show fullBlocks gexp sphT ct basis (permuteCoords σ a).rows
          (ordersToNat v.data) =
          (fullBlocks gexp sphT ct basis a.rows (ordersToNat v.data)).map
            (selRow σ) from
        fullBlocks_selRows gexp sphT ct basis σ a.rows (ordersToNat v.data)
          hwfb hσ]
      exact matmul_selRows T
        (fullBlocks gexp sphT ct basis a.rows (ordersToNat v.data)) σ
        a.rows.length
        (fullBlocks_ne_nil gexp sphT ct basis a.rows (ordersToNat v.data)
          hbne hwfb hsphT hct)
        (fullBlocks_rows gexp sphT ct basis a.rows (ordersToNat v.data)
          hwfb) hσ

/-- C8 witness: swapping the two concrete points swaps the point axis. -/
theorem c8_point_order_preserved_witness :
    ((∀ s ∈ [shellS], s.wf) ∧ [shellS] ≠ [] ∧
      (∀ L, (sphW L).length = 2 * L + 1) ∧ coordsTwo.wf ∧
      coordsTwo.ncols = 3 ∧
      (NpVector.mk NpDtype.int64 [0, 0, 0]).dtype = npDefaultIntDtype ∧
      (NpVector.mk NpDtype.int64 [0, 0, 0]).data.length = 3 ∧
      (∀ q ∈ (NpVector.mk NpDtype.int64 [0, 0, 0]).data, 0 ≤ q) ∧
      ∀ i ∈ [1, 0], i < coordsTwo.rows.length) ∧
    (∃ out, construct_array_contraction expOne (PyContraction.shell shellS)
        (PyCoords.ndarray2 coordsTwo)
        (PyOrders.ndarray1 (NpVector.mk NpDtype.int64 [0, 0, 0])) =
          Except.ok out ∧
      construct_array_contraction expOne (PyContraction.shell shellS)
          (PyCoords.ndarray2 (permuteCoords [1, 0] coordsTwo))
          (PyOrders.ndarray1 (NpVector.mk NpDtype.int64 [0, 0, 0])) =
        Except.ok (out.map fun mat => mat.map (selRow [1, 0]))) ∧
    (∀ (transform : Option (List (List ℚ))) (ct : CoordTypeArg),
      validCoordType ct [shellS] →
      evaluate_deriv_basis expOne sphW [shellS]
          (PyCoords.ndarray2 (permuteCoords [1, 0] coordsTwo))
          (PyOrders.ndarray1 (NpVector.mk NpDtype.int64 [0, 0, 0]))
          transform ct =
        (evaluate_deriv_basis expOne sphW [shellS]
          (PyCoords.ndarray2 coordsTwo)
          (PyOrders.ndarray1 (NpVector.mk NpDtype.int64 [0, 0, 0]))
          transform ct).map (List.map (selRow [1, 0]))) :=
  ⟨⟨(by simp [shellS, GeneralizedContractionShell.wf,
        GeneralizedContractionShell.numSeg,
        GeneralizedContractionShell.numCart]),
    (by decide), (by intro L; simp [sphW]),
    (by simp [coordsTwo, NpArray2D.wf]), (by decide), (by decide),
    (by decide), (by decide), (by decide)⟩,
    c8_point_order_preserved expOne sphW [shellS] shellS coordsTwo
      (NpVector.mk NpDtype.int64 [0, 0, 0]) [1, 0]
      (by simp [shellS, GeneralizedContractionShell.wf,
        GeneralizedContractionShell.numSeg,
        GeneralizedContractionShell.numCart])
      (by decide) (by intro L; simp [sphW])
      (by simp [coordsTwo, NpArray2D.wf]) (by decide) (by decide)
      (by decide) (by decide) (by decide)⟩
